import Mathlib

/-!
Verification of the conversational scheduling assistant (backend/utils/date_parser.py,
backend/utils/calendar.py, backend/agent/booking_agent.py, backend/agent/tools.py).

Datetimes are modelled as natural numbers of seconds; day `d` starts at second
`d * 86400`, and day 0 is a Monday so that `d % 7` matches Python's
`datetime.weekday()` (0 = Monday). Strings are modelled as `List Char`; Python's
substring test `a in b` is `pyIn`, `str.lower` is `lowerChars`, `str.strip` is
`pyStrip`.
-/

/-- Python whitespace class `\s` (also what `str.strip` removes by default). -/
def isPySpace (c : Char) : Bool :=
  c = ' ' || c = '\t' || c = '\n' || c = '\r' || c = '\x0b' || c = '\x0c'

/-- Python `needle in hay` on strings: substring containment, checked at every
start position. -/
def pyIn (needle hay : List Char) : Bool :=
  match hay with
  | [] => needle.isEmpty
  | c :: t => needle.isPrefixOf (c :: t) || pyIn needle t

/-- Python `str.lower()` restricted to ASCII, which is all the source compares. -/
def lowerChars (s : List Char) : List Char :=
  s.map Char.toLower

/-- Python `str.strip()`. -/
def pyStrip (s : List Char) : List Char :=
  ((s.dropWhile isPySpace).reverse.dropWhile isPySpace).reverse

/-- Numeric value of a list of ASCII digits, as Python `int()` of the matched group. -/
def digitsVal (ds : List Char) : Nat :=
  ds.foldl (fun acc c => acc * 10 + (c.toNat - 48)) 0

/-!
Model of `re.search` for the two fixed patterns of `date_parser.py`:
`(\d{1,2})(?::(\d{2}))?\s*(am|pm)` and `(\d{1,2}):(\d{2})`. `re.search` returns
the leftmost match; at each position `\d{1,2}` is greedy (two digits first,
backtracking to one), the optional `:MM` group is tried present-first, `\s*`
eats the maximal whitespace run (giving back whitespace cannot help `am|pm`).
-/

/-- Tail of the 12-hour pattern after the optional `:MM` group: `\s*(am|pm)`. -/
def match12Suffix (h m : Nat) (cs : List Char) : Option (Nat × Nat × Bool) :=
  let cs' := cs.dropWhile isPySpace
  if ['a', 'm'].isPrefixOf cs' then some (h, m, false)
  else if ['p', 'm'].isPrefixOf cs' then some (h, m, true)
  else none

/-- The 12-hour pattern after the hour digits: `(?::(\d{2}))?\s*(am|pm)`,
optional group tried present-first with backtracking to absent. -/
def match12Tail (h : Nat) (cs : List Char) : Option (Nat × Nat × Bool) :=
  match cs with
  | ':' :: c :: d :: rest =>
    if c.isDigit && d.isDigit then
      match match12Suffix h ((c.toNat - 48) * 10 + (d.toNat - 48)) rest with
      | some r => some r
      | none => match12Suffix h 0 (':' :: c :: d :: rest)
    else match12Suffix h 0 (':' :: c :: d :: rest)
  | _ => match12Suffix h 0 cs

/-- One anchored attempt of the whole 12-hour pattern: greedy two-digit hour,
backtracking to one digit. -/
def match12At (cs : List Char) : Option (Nat × Nat × Bool) :=
  match cs with
  | [] => none
  | a :: rest =>
    if a.isDigit then
      match rest with
      | [] => match12Tail (a.toNat - 48) []
      | b :: rest2 =>
        if b.isDigit then
          match match12Tail ((a.toNat - 48) * 10 + (b.toNat - 48)) rest2 with
          | some r => some r
          | none => match12Tail (a.toNat - 48) rest
        else match12Tail (a.toNat - 48) rest
    else none

/-- `re.search` of the 12-hour pattern: leftmost position whose anchored attempt
succeeds; result `(hour, minute, isPm)`. -/
def search12 : List Char → Option (Nat × Nat × Bool)
  | [] => none
  | c :: rest =>
    match match12At (c :: rest) with
    | some r => some r
    | none => search12 rest

/-- The 24-hour pattern after the hour digits: `:(\d{2})`. -/
def match24Tail (h : Nat) : List Char → Option (Nat × Nat)
  | ':' :: c :: d :: _ =>
    if c.isDigit && d.isDigit then some (h, (c.toNat - 48) * 10 + (d.toNat - 48)) else none
  | _ => none

/-- One anchored attempt of `(\d{1,2}):(\d{2})`. -/
def match24At (cs : List Char) : Option (Nat × Nat) :=
  match cs with
  | [] => none
  | a :: rest =>
    if a.isDigit then
      match rest with
      | [] => none
      | b :: rest2 =>
        if b.isDigit then
          match match24Tail ((a.toNat - 48) * 10 + (b.toNat - 48)) rest2 with
          | some r => some r
          | none => match24Tail (a.toNat - 48) rest
        else match24Tail (a.toNat - 48) rest
    else none

/-- `re.search` of the 24-hour pattern `(\d{1,2}):(\d{2})`. -/
def search24 : List Char → Option (Nat × Nat)
  | [] => none
  | c :: rest =>
    match match24At (c :: rest) with
    | some r => some r
    | none => search24 rest

/-- The `time_preference` strings of `date_parser.py`, by template. Downstream
code only tests them by substring ("specific time", "morning", ...), which this
inductive preserves exactly. -/
inductive TimePref where
  | business
  | specific (h m : Nat)
  | morning
  | afternoon
  | evening
deriving DecidableEq

/-- Output dictionary of `parse_date_preference`. The two `Option` fields model
`dict.get` on keys that this parser never emits (`is_availability_request`,
`availability_period`): they are always `none`, exactly as `.get` on the
returned dict always yields Python `None`. -/
structure DatePref where
  target_date : Nat
  time_preference : TimePref
  start_hour : Nat
  duration : Nat
  is_availability_request : Option Bool := none
  availability_period : Option (List Char) := none
deriving DecidableEq

/-- `(target_weekday - today_weekday) % 7`, mapped to 7 when zero, as in
`date_parser.py` (Python `%` on the possibly negative difference equals this
`Nat` form because both arguments are below 7). -/
def nextWeekdayDelta (target todayW : Nat) : Nat :=
  let d := (target + 7 - todayW) % 7
  if d = 0 then 7 else d

/-- The date-resolution if/elif chain of `parse_date_preference`
(`date_parser.py`): relative keywords first, then the named weekdays in
Monday..Sunday order, defaulting to tomorrow. `l` is the lowered input. -/
def parseTargetDate (today : Nat) (l : List Char) : Nat :=
  let todayW := today % 7
  if pyIn "tomorrow".toList l || pyIn "next day".toList l then today + 1
  else if pyIn "next week".toList l then today + 7
  else if pyIn "next monday".toList l then today + nextWeekdayDelta 0 todayW
  else if pyIn "next tuesday".toList l then today + nextWeekdayDelta 1 todayW
  else if pyIn "next wednesday".toList l then today + nextWeekdayDelta 2 todayW
  else if pyIn "next thursday".toList l then today + nextWeekdayDelta 3 todayW
  else if pyIn "next friday".toList l then today + nextWeekdayDelta 4 todayW
  else if pyIn "next saturday".toList l then today + nextWeekdayDelta 5 todayW
  else if pyIn "next sunday".toList l then today + nextWeekdayDelta 6 todayW
  else today + 1

/-- The `time_preference`/`start_hour` pair of local variables, initialized to
the business-hours defaults and overwritten by the first matching branch. -/
def parseTimePart (l : List Char) : TimePref × Nat :=
  match search12 l with
  | some (h, m, isPm) =>
    let hour := if isPm && h != 12 then h + 12 else if !isPm && h = 12 then 0 else h
    (.specific hour m, hour)
  | none =>
    match search24 l with
    | some (h, m) =>
      if h < 24 && m < 60 then (.specific h m, h) else (.business, 10)
    | none =>
      if pyIn "morning".toList l then (.morning, 9)
      else if pyIn "afternoon".toList l then (.afternoon, 13)
      else if pyIn "evening".toList l then (.evening, 17)
      else (.business, 10)

/-- `backend/utils/date_parser.py::parse_date_preference`. `today` is the
current day number (day 0 a Monday, so `today % 7` is Python's
`today.weekday()`). Exactly as in the source, the single return dict carries
the computed date and time parts and the constant duration 60; the 12-hour
clock match is applied without any range check, only the 24-hour form is
validated. -/
def parse_date_preference (today : Nat) (user_input : List Char) : DatePref :=
  let l := lowerChars user_input
  let tp := parseTimePart l
  { target_date := parseTargetDate today l, time_preference := tp.1, start_hour := tp.2,
    duration := 60 }

/-- `backend/agent/tools.py::parse_date_preference` (the second, simpler
implementation: only tomorrow / next week / next friday / next monday and the
keyword windows; no clock-time parsing). -/
def parse_date_preference_tools (today : Nat) (user_input : List Char) : DatePref :=
  let l := lowerChars user_input
  let todayW := today % 7
  let target_date :=
    if pyIn "tomorrow".toList l || pyIn "next day".toList l then today + 1
    else if pyIn "next week".toList l then today + 7
    else if pyIn "next friday".toList l then today + nextWeekdayDelta 4 todayW
    else if pyIn "next monday".toList l then today + nextWeekdayDelta 0 todayW
    else today + 1
  let tp : TimePref × Nat :=
    if pyIn "morning".toList l then (.morning, 9)
    else if pyIn "afternoon".toList l then (.afternoon, 13)
    else if pyIn "evening".toList l then (.evening, 17)
    else (.business, 10)
  { target_date, time_preference := tp.1, start_hour := tp.2, duration := 60 }


/-!
Slot generation (`backend/utils/calendar.py`). A slot dictionary carries its
start, end and duration; the precomputed display strings are derived data and
are produced where the agent needs them (`fmt12`). `day` models the
`day_name`/`day_date` tag added only in the multi-day branch of
`suggest_time_slots`.
-/

/-- One offered appointment window (the dict built by
`_generate_available_slots`). `stop` is the dict's `end` key (a Lean keyword).
Times are seconds; `duration_minutes` is in minutes as in the source. -/
structure Slot where
  start : Nat
  stop : Nat
  duration_minutes : Nat
  day : Option Nat := none
deriving DecidableEq

/-- The while-loop of `_generate_available_slots`, stepping 30 minutes per
iteration. `fuel` is a structural bound on the number of iterations (the caller
passes more fuel than the loop can use, so the loop always exits on
`t < endDate` turning false, never on fuel). -/
def genSlotsGo (endDate : Nat) (events : List (Nat × Nat)) (durMin : Nat) :
    Nat → Nat → List Slot
  | 0, _ => []
  | fuel + 1, t =>
    if t < endDate then
      let slotEnd := t + durMin * 60
      let isAvailable := events.all fun ev => !(decide (t < ev.2) && decide (slotEnd > ev.1))
      let rest := genSlotsGo endDate events durMin fuel (t + 1800)
      if 9 ≤ t / 3600 % 24 ∧ t / 3600 % 24 < 17 then
        if isAvailable && decide (slotEnd ≤ endDate) then
          { start := t, stop := slotEnd, duration_minutes := durMin } :: rest
        else rest
      else rest
    else []

/-- `GoogleCalendarManager._generate_available_slots`: candidates every 30
minutes from `startDate`, admitted when the start hour is within business hours
9-17, the slot ends by `endDate`, and it overlaps no busy interval under the
half-open test `t < ev.end and slot_end > ev.start`. -/
def generateAvailableSlots (startDate endDate : Nat) (events : List (Nat × Nat))
    (durMin : Nat) : List Slot :=
  genSlotsGo endDate events durMin ((endDate - startDate) / 1800 + 1) startDate

/-- `GoogleCalendarManager.check_availability`: authenticates first (returning
no slots on failure), lists busy intervals (`events`, the oracle for what the
calendar API returns for the queried range) and generates available slots. -/
def check_availability (authOk : Bool) (events : List (Nat × Nat))
    (startDate endDate : Nat) (durMin : Nat) : List Slot :=
  if authOk then generateAvailableSlots startDate endDate events durMin else []

/-- `GoogleCalendarManager.get_next_available_slots`: business hours of `day`,
truncated to `count` slots. -/
def get_next_available_slots (authOk : Bool) (events : List (Nat × Nat))
    (day count : Nat) : List Slot :=
  (check_availability authOk events (day * 86400 + 9 * 3600) (day * 86400 + 17 * 3600) 60).take
    count

/-- Distance used by the proximity sort for specific-time requests:
`abs(slot_start - target_time)`. -/
def slotDist (targetTime : Nat) (s : Slot) : Nat :=
  ((s.start : Int) - (targetTime : Int)).natAbs

/-- The `day_name`/`day_date` tag added to a slot in the multi-day branch. -/
def tagDay (day : Nat) (s : Slot) : Slot :=
  { s with day := some day }

/-- The exception `datetime.replace(hour=h)` raises for `h` outside 0..23.
The parser's unvalidated 12-hour path can hand `suggest_time_slots` such an
hour, so the function is fallible. -/
inductive PyValueError where
  | hourOutOfRange
deriving DecidableEq

instance {ε α : Type} [DecidableEq ε] [DecidableEq α] : DecidableEq (Except ε α)
  | .error x, .error y =>
    if h : x = y then isTrue (congrArg Except.error h)
    else isFalse fun hh => h (Except.error.inj hh)
  | .error _, .ok _ => isFalse fun hh => Except.noConfusion hh
  | .ok _, .error _ => isFalse fun hh => Except.noConfusion hh
  | .ok x, .ok y =>
    if h : x = y then isTrue (congrArg Except.ok h)
    else isFalse fun hh => h (Except.ok.inj hh)

/-- `GoogleCalendarManager.suggest_time_slots`. The first branch (`this week`
multi-day search) is guarded by `parsed.get('is_availability_request')` and
`parsed.get('availability_period')`, keys `parse_date_preference` never emits,
so the guard can never hold; it is modelled nonetheless. In the specific-time
branch `target_date.replace(hour=max(9, start_hour - 1), ...)` raises
`ValueError` when `start_hour ≥ 25` (the end hour `min(17, start_hour + 1)`
never can), and the proximity sort's
`target_date.replace(hour=start_hour, minute=0)` raises when
`start_hour > 23`; both raising paths return `.error`. Python's stable
`list.sort` is modelled by `List.insertionSort`, which is also stable, and any
two stable sorts under the same total preorder agree. -/
def suggest_time_slots (authOk : Bool) (events : List (Nat × Nat)) (today : Nat)
    (user_preference : List Char) : Except PyValueError (List Slot) :=
  let parsed := parse_date_preference today user_preference
  let target_date := parsed.target_date
  let start_hour := parsed.start_hour
  if parsed.is_availability_request.getD false
      && parsed.availability_period == some "week".toList then
    let all_slots := (List.range 7).flatMap fun i =>
      let day := target_date + i
      (check_availability authOk events (day * 86400 + 9 * 3600) (day * 86400 + 17 * 3600)
        60).map (tagDay day)
    .ok ((all_slots.insertionSort fun a b => a.start ≤ b.start).take 10)
  else
    let window : Except PyValueError (Nat × Nat) :=
      match parsed.time_preference with
      | .specific _ _ =>
        if 23 < max 9 (start_hour - 1) then .error .hourOutOfRange
        else
          .ok (target_date * 86400 + max 9 (start_hour - 1) * 3600,
            target_date * 86400 + min 17 (start_hour + 1) * 3600 + 59 * 60 + 59)
      | .morning => .ok (target_date * 86400 + 9 * 3600, target_date * 86400 + 12 * 3600)
      | .afternoon => .ok (target_date * 86400 + 13 * 3600, target_date * 86400 + 17 * 3600)
      | .evening => .ok (target_date * 86400 + 17 * 3600, target_date * 86400 + 19 * 3600)
      | .business => .ok (target_date * 86400 + 9 * 3600, target_date * 86400 + 17 * 3600)
    match window with
    | .error e => .error e
    | .ok w =>
      let available := check_availability authOk events w.1 w.2 60
      match parsed.time_preference with
      | .specific _ _ =>
        if 23 < start_hour then .error .hourOutOfRange
        else
          let target_time := target_date * 86400 + start_hour * 3600
          .ok (available.insertionSort fun a b =>
            slotDist target_time a ≤ slotDist target_time b)
      | _ => .ok available

/-- The three-tier narrowing/widening ladder exactly as the specification words
it for specific-time requests (exact one-hour slot at the requested hour, then
the window widened to one hour either side, then two hours, clamped to business
hours; each tier only when the previous one was empty). This definition follows
the spec's words, for comparison against `suggest_time_slots`; the source
implements no such ladder. -/
def specLadderSuggest (authOk : Bool) (events : List (Nat × Nat)) (today : Nat)
    (user_preference : List Char) : List Slot :=
  let parsed := parse_date_preference today user_preference
  let d := parsed.target_date
  let h := parsed.start_hour
  let tier1 :=
    check_availability authOk events (d * 86400 + h * 3600) (d * 86400 + (h + 1) * 3600) 60
  if tier1 ≠ [] then tier1
  else
    let tier2 := check_availability authOk events (d * 86400 + max 9 (h - 1) * 3600)
      (d * 86400 + min 17 (h + 1) * 3600) 60
    if tier2 ≠ [] then tier2
    else
      check_availability authOk events (d * 86400 + max 9 (h - 2) * 3600)
        (d * 86400 + min 17 (h + 2) * 3600) 60


/-!
The conversation state machine (`backend/agent/booking_agent.py`). Each node is
a function on `AgentState`; the LangGraph conditional edges are the routing in
`runAgent`. External effects (the intent LLM, calendar authentication, the
events the calendar API lists, and the outcome of event insertion) are supplied
by an `Oracle`. Message text is modelled by which response template produced it
(`responses.py` functions and the inline f-strings of the nodes) together with
the data interpolated into it.
-/

/-- The intents the LLM prompt admits. -/
inductive Intent where
  | schedule
  | availability
  | general_inquiry
  | modify
  | cancel
deriving DecidableEq

/-- A slot as formatted for display (`slots_info` entries in the agent nodes):
`number` is the 1-based menu position, `time` the `%I:%M %p` rendering, `start`
and `stop` the reparsed datetimes in seconds. `suggest_slots_node` builds
entries without `number`/`time` keys; those are modelled as `0` and `[]`
(what `.get` with the defaults used downstream yields). -/
structure DisplaySlot where
  number : Nat
  time : List Char
  durMin : Nat
  start : Nat
  stop : Nat
deriving DecidableEq

/-- `conversation_context` keys the nodes actually read or write. `dict.update`
keeps old keys not present in the delta (`Ctx.merge`). -/
structure Ctx where
  date : Option (List Char) := none
  time : Option (List Char) := none
  urgency : Option (List Char) := none
  participants : Option Nat := none
deriving DecidableEq

/-- Python `dict.update`: a key present in `delta` replaces the old value. -/
def Ctx.merge (c delta : Ctx) : Ctx :=
  { date := delta.date.orElse fun _ => c.date,
    time := delta.time.orElse fun _ => c.time,
    urgency := delta.urgency.orElse fun _ => c.urgency,
    participants := delta.participants.orElse fun _ => c.participants }

/-- The `appointment_details` dict: every field models one key, `none` meaning
the key is absent. -/
structure Appt where
  target_date : Option Nat := none
  time_preference : Option TimePref := none
  start_hour : Option Nat := none
  duration : Option Nat := none
  parsed_input : Option (List Char) := none
  title : Option (List Char) := none
  start_time : Option Nat := none
  end_time : Option Nat := none
  selected_slot : Option DisplaySlot := none
  description : Option (List Char) := none
deriving DecidableEq

/-- `user_preferences` keys written by `collect_details_node`. -/
structure Prefs where
  time_preference : Option TimePref := none
  preferred_date : Option Nat := none
deriving DecidableEq

/-- The `error_message` strings the nodes can store without an exception being
raised (exception paths cannot fire in this total model: every failable
external call is modelled by its returned value). Each constructor records
which source string it stands for; `handle_error_node` routes on substrings of
that string. -/
inductive ErrKind where
  | noDetailsAvail        -- "No appointment details available to check availability"
  | noTargetDate          -- "No target date specified"
  | noDetailsForBooking   -- "No appointment details available for booking"
  | missingBookingDetails -- "Missing required appointment details"
  | unknown               -- "An unexpected error occurred" (default in handle_error_node)
deriving DecidableEq

/-- Assistant response templates: `responses.py` plus the inline f-strings in
`booking_agent.py`, tagged with the data interpolated into them. -/
inductive Msg where
  | generalGreeting
  | helpResponse
  | goodbyeResponse
  | intentPrompt (intent : Intent) (haveDate haveTime : Bool)
  | intentFallback
  | collectConfirm (pref : TimePref) (date startHour : Nat)
  | autoSelected (start durMin date : Nat)
  | slotList (slots : List DisplaySlot) (date : Nat)
  | noSlotsForDate (date : Nat)     -- inline "couldn't find any available slots" variant
  | noSlotsForDateAlt (date : Nat)  -- inline "couldn't find available slots" variant
  | calendarTrouble                 -- inline "trouble accessing the calendar" in check_availability_node
  | techIssue                       -- inline "couldn't check availability right now"
  | slotSuggestion (slots : List DisplaySlot) (date : Option Nat)
  | noAvailability                  -- responses.no_availability()
  | errorCalendar                   -- responses.error_response("calendar")
  | errorBooking                    -- responses.error_response("booking")
  | errorGeneral                    -- responses.error_response("general")
  | clarificationNeeded
  | clarificationGeneral
  | processingResponse
  | slotSelectionConfirmation (n : Nat) (s : DisplaySlot)
  | bookingConfirmation (start stop : Nat)
deriving DecidableEq

/-- A chat message: user turns carry free text, assistant turns a template. -/
inductive Content where
  | text (s : List Char)
  | tmpl (m : Msg)
deriving DecidableEq

inductive Role where
  | user
  | assistant
deriving DecidableEq

structure Message where
  role : Role
  content : Content
deriving DecidableEq

/-- Shorthand for an appended assistant message. -/
def asst (m : Msg) : Message :=
  { role := .assistant, content := .tmpl m }

/-- The `AgentState` pydantic model (fields the nodes touch). -/
structure AgentState where
  messages : List Message := []
  user_intent : Option Intent := none
  appointment_details : Appt := {}
  available_slots : List DisplaySlot := []
  booking_confirmed : Bool := false
  error_message : Option ErrKind := none
  conversation_context : Ctx := {}
  user_preferences : Prefs := {}
  simple_greeting : Bool := false
  auto_selected_slot : Bool := false
deriving DecidableEq

/-- Outcome of one cached LLM intent request
(`get_cached_llm_response` + `json.loads`). -/
inductive LlmIntentResult where
  | ok (intent : Intent) (ctxDelta : Ctx)
  | badJson
  | empty

/-- The environment a turn runs against: today's day number, whether calendar
authentication succeeds in the availability nodes, the busy intervals the
calendar API lists, the intent-LLM outcome per retry attempt, the entity
extraction result, and per-booking-attempt authentication and event-insertion
outcomes. -/
structure Oracle where
  today : Nat := 0
  authCheck : Bool := true
  events : List (Nat × Nat) := []
  intentLlm : Nat → LlmIntentResult := fun _ => .badJson
  entities : Ctx := {}
  authBook : Nat → Bool := fun _ => true
  insertOk : Nat → Bool := fun _ => false

/-- Content of the last message whose role is `user`, scanned from the end. -/
def lastUserText (ms : List Message) : Option (List Char) :=
  match ms.reverse.find? fun m => m.role == .user with
  | some m =>
    match m.content with
    | .text s => some s
    | .tmpl _ => none
  | none => none

/-- Number of assistant messages in a transcript. -/
def assistantCount (ms : List Message) : Nat :=
  (ms.filter fun m => m.role == .assistant).length

/-- `greeting_node`: always appends the general greeting. -/
def greeting_node (st : AgentState) : AgentState :=
  { st with messages := st.messages ++ [asst .generalGreeting] }

def simple_greetings : List (List Char) :=
  ["hi", "hello", "hey", "good morning", "good afternoon", "good evening", "howdy"].map
    String.toList

def help_keywords : List (List Char) :=
  ["help", "what can you do", "how does this work", "show me examples"].map String.toList

def goodbye_keywords : List (List Char) :=
  ["bye", "goodbye", "thanks", "thank you", "see you", "that\x27s all"].map String.toList

/-- The LLM retry loop of `understand_intent_node` (`for attempt in
range(max_retries + 1)` with `max_retries = 2`): a parsed response appends the
intent-dependent reply and breaks; a malformed or empty response appends the
fallback reply only on the last attempt. `fuel` is the number of remaining
iterations, started at 3. -/
def intentAttempts (o : Oracle) (st : AgentState) : Nat → Nat → AgentState
  | _, 0 => st
  | attempt, fuel + 1 =>
    match o.intentLlm attempt with
    | .ok intent delta =>
      let ctx := (st.conversation_context.merge delta).merge o.entities
      { st with
        user_intent := some intent
        conversation_context := ctx
        messages :=
          st.messages ++ [asst (.intentPrompt intent ctx.date.isSome ctx.time.isSome)] }
    | .badJson =>
      if attempt = 2 then { st with messages := st.messages ++ [asst .intentFallback] }
      else intentAttempts o st (attempt + 1) fuel
    | .empty =>
      if attempt = 2 then { st with messages := st.messages ++ [asst .intentFallback] }
      else intentAttempts o st (attempt + 1) fuel

/-- `understand_intent_node`: greeting/help/goodbye pre-filters short-circuit
(setting `simple_greeting`) before any model call; otherwise the retry loop. -/
def understand_intent_node (o : Oracle) (st : AgentState) : AgentState :=
  if st.messages = [] then st
  else
    match lastUserText st.messages with
    | none => st
    | some u =>
      let lu := lowerChars u
      if pyStrip lu ∈ simple_greetings then
        { st with messages := st.messages ++ [asst .generalGreeting], simple_greeting := true }
      else if help_keywords.any fun k => pyIn k lu then
        { st with messages := st.messages ++ [asst .helpResponse], simple_greeting := true }
      else if goodbye_keywords.any fun k => pyIn k lu then
        { st with messages := st.messages ++ [asst .goodbyeResponse], simple_greeting := true }
      else intentAttempts o st 0 3

/-- `collect_details_node`: parses the latest utterance (the parser always
yields a dict with `target_date`, so the guarded update always fires), merges
the result into `appointment_details` and `user_preferences`, and confirms.
The urgency/participant suffixes vary only the text of the same message. -/
def collect_details_node (o : Oracle) (st : AgentState) : AgentState :=
  if st.messages = [] then st
  else
    match lastUserText st.messages with
    | none => st
    | some u =>
      let parsed := parse_date_preference o.today u
      let ad :=
        { st.appointment_details with
          target_date := some parsed.target_date
          time_preference := some parsed.time_preference
          start_hour := some parsed.start_hour
          duration := some parsed.duration
          parsed_input := some u }
      { st with
        appointment_details := ad
        user_preferences :=
          { time_preference := some parsed.time_preference,
            preferred_date := some parsed.target_date }
        messages :=
          st.messages ++
            [asst (.collectConfirm parsed.time_preference parsed.target_date parsed.start_hour)] }

/-- `%I:%M %p` rendering of a time of day. -/
def fmt12 (t : Nat) : List Char :=
  let h24 := t / 3600 % 24
  let h12 := if h24 % 12 = 0 then 12 else h24 % 12
  let mins := t / 60 % 60
  let pad2 := fun n : Nat => [Char.ofNat (48 + n / 10), Char.ofNat (48 + n % 10)]
  pad2 h12 ++ [':'] ++ pad2 mins ++ [' '] ++ (if h24 < 12 then "AM".toList else "PM".toList)

/-- One formatted `slots_info` entry. -/
def mkDisplay (n : Nat) (s : Slot) : DisplaySlot :=
  { number := n, time := fmt12 (s.start % 86400), durMin := s.duration_minutes,
    start := s.start, stop := s.stop }

/-- `enumerate(slots, 1)` over the formatted entries. -/
def numberSlots (n : Nat) : List Slot → List DisplaySlot
  | [] => []
  | s :: rest => mkDisplay n s :: numberSlots (n + 1) rest

/-- `f"Appointment - {parsed_input or 'Meeting'}"`. -/
def mkTitle (parsedInput : Option (List Char)) : List Char :=
  "Appointment - ".toList ++ parsedInput.getD "Meeting".toList

/-- Shared tail of `check_availability_node`: format up to 8 slots, or report
that none were found (`noSlotsForDate` when the list died in formatting,
`noSlotsForDateAlt` when it was empty to begin with). -/
def presentSlots (st : AgentState) (targetDay : Nat) (available : List Slot) : AgentState :=
  if available ≠ [] then
    let slotsInfo := numberSlots 1 (available.take 8)
    if slotsInfo ≠ [] then
      { st with
        available_slots := slotsInfo
        messages := st.messages ++ [asst (.slotList slotsInfo targetDay)] }
    else
      { st with
        available_slots := []
        messages := st.messages ++ [asst (.noSlotsForDate targetDay)] }
  else
    { st with
      available_slots := []
      messages := st.messages ++ [asst (.noSlotsForDateAlt targetDay)] }

/-- `check_availability_node`: guards on `appointment_details` and
`target_date`; authenticates (failure yields the inline calendar-trouble
message, not a "no availability" one); for a specific-time preference with
slots, auto-selects the first slot and sets `auto_selected_slot`; otherwise
presents up to 8 numbered slots; with no user message falls back to
`get_next_available_slots`. -/
def check_availability_node (o : Oracle) (st : AgentState) : AgentState :=
  if st.appointment_details = {} then { st with error_message := some .noDetailsAvail }
  else
    match st.appointment_details.target_date with
    | none => { st with error_message := some .noTargetDate }
    | some targetDay =>
      if o.authCheck then
        match lastUserText st.messages with
        | some u =>
          match suggest_time_slots true o.events o.today u with
          | .error _ =>
            -- inner `except Exception` of the node: technical-issue reply
            { st with
              available_slots := []
              messages := st.messages ++ [asst .techIssue] }
          | .ok available =>
          let parsed := parse_date_preference o.today u
          let isSpecific : Bool :=
            match parsed.time_preference with
            | .specific _ _ => true
            | _ => false
          match available with
          | best :: _ =>
            if isSpecific then
              let slotInfo := mkDisplay 1 best
              { st with
                appointment_details :=
                  { st.appointment_details with
                    title := some (mkTitle st.appointment_details.parsed_input)
                    start_time := some best.start
                    end_time := some best.stop
                    start_hour := some (best.start / 3600 % 24)
                    selected_slot := some slotInfo }
                available_slots := [slotInfo]
                auto_selected_slot := true
                messages :=
                  st.messages ++ [asst (.autoSelected best.start best.duration_minutes targetDay)] }
            else presentSlots st targetDay available
          | [] => presentSlots st targetDay available
        | none =>
          let available := get_next_available_slots true o.events targetDay 8
          presentSlots st targetDay available
      else
        { st with
          available_slots := []
          messages := st.messages ++ [asst .calendarTrouble] }

/-- `suggest_slots_node`: suggests up to 5 slots from the user preference; on
authentication failure responds with `error_response("calendar")`, on a raised
exception with `error_response("general")`, on an empty suggestion list with
`no_availability()`. The formatted entries here carry no `number`/`time`
keys. -/
def suggest_slots_node (o : Oracle) (st : AgentState) : AgentState :=
  if st.messages = [] then st
  else
    match lastUserText st.messages with
    | none => st
    | some u =>
      if o.authCheck then
        match suggest_time_slots true o.events o.today u with
        | .error _ =>
          -- `except Exception` of the node body
          { st with
            available_slots := []
            messages := st.messages ++ [asst .errorGeneral] }
        | .ok suggested =>
        if suggested ≠ [] then
          let slotsInfo := (suggested.take 5).map fun s =>
            { number := 0, time := [], durMin := s.duration_minutes,
              start := s.start, stop := s.stop : DisplaySlot }
          { st with
            available_slots := slotsInfo
            messages :=
              st.messages ++
                [asst (.slotSuggestion slotsInfo st.appointment_details.target_date)] }
        else
          { st with
            available_slots := []
            messages := st.messages ++ [asst .noAvailability] }
      else
        { st with
          available_slots := []
          messages := st.messages ++ [asst .errorCalendar] }

/-- The capture of `re.search(r'(?:slot\s+)?(\d+)', msg)`: the leftmost maximal
digit run (the optional `slot` prefix only widens where a match may start, the
captured group is still the first digit run). -/
def firstNumberToken : List Char → Option Nat
  | [] => none
  | c :: t =>
    if c.isDigit then some (digitsVal (c :: t.takeWhile Char.isDigit))
    else firstNumberToken t

def confirmation_keywords : List (List Char) :=
  ["yes", "confirm", "book", "schedule", "okay", "sure", "perfect", "that works"].map
    String.toList

/-- Slot resolution of `confirm_booking_node`: an in-range numeric index first,
then the first slot whose `time` display string occurs in the reply. -/
def resolveSlot (slots : List DisplaySlot) (lu : List Char) : Option DisplaySlot :=
  let byNumber :=
    if slots ≠ [] then
      match firstNumberToken lu with
      | some n => if 1 ≤ n ∧ n ≤ slots.length then slots[n - 1]? else none
      | none => none
    else none
  match byNumber with
  | some s => some s
  | none =>
    if slots ≠ [] then slots.find? fun s => pyIn (lowerChars s.time) lu
    else none

/-- `confirm_booking_node`: resolves the reply to a slot (numeric index over
textual time match), else treats confirmation keywords, else re-prompts. The
`slot_num if 'slot_num' in locals() else 1` argument of the confirmation
message is the matched number when the regex matched, 1 otherwise. -/
def confirm_booking_node (st : AgentState) : AgentState :=
  if st.messages = [] then st
  else
    match lastUserText st.messages with
    | none => st
    | some u =>
      let lu := lowerChars u
      let isConfirming := confirmation_keywords.any fun k => pyIn k lu
      match resolveSlot st.available_slots lu with
      | some s =>
        let shownNum :=
          if st.available_slots ≠ [] then
            match firstNumberToken lu with
            | some n => n
            | none => 1
          else 1
        { st with
          appointment_details :=
            { st.appointment_details with
              title := some (mkTitle st.appointment_details.parsed_input)
              start_time := some s.start
              end_time := some s.stop
              start_hour := some (s.start / 3600 % 24)
              selected_slot := some s }
          messages := st.messages ++ [asst (.slotSelectionConfirmation shownNum s)] }
      | none =>
        if isConfirming then
          if st.appointment_details.start_time.isSome ∧ st.appointment_details.end_time.isSome
          then { st with messages := st.messages ++ [asst .processingResponse] }
          else { st with messages := st.messages ++ [asst .clarificationNeeded] }
        else if st.available_slots ≠ [] then
          { st with
            messages := st.messages ++ [asst (.slotSuggestion st.available_slots none)] }
        else { st with messages := st.messages ++ [asst .clarificationGeneral] }

/-- `GoogleCalendarManager.book_appointment` with the service already
authenticated: re-checks availability of the exact window (returning the
"Time slot no longer available" failure when empty) and then the insert call,
whose outcome the oracle supplies per attempt. -/
def managerBook (o : Oracle) (attempt startT endT : Nat) : Bool :=
  if check_availability true o.events startT endT ((endT - startT) / 60) = [] then false
  else o.insertOk attempt

/-- The booking retry loop (`for attempt in range(max_booking_attempts + 1)`
with `max_booking_attempts = 2`): per attempt authenticate, then on a retry
(`attempt > 0`) call `get_next_available_slots(start_dt.date(), 1)` to
re-verify the slot — but that call hands a `date` object to
`date.replace(hour=9, ...)`, which always raises `TypeError`; the loop's
`except` catches it and the retry attempt simply fails (continuing, or ending
with `error_response("general")` on the last attempt), so only attempt 0 can
ever reach the booking call. `fuel` starts at 3. -/
def bookLoop (o : Oracle) (st : AgentState) (startT endT : Nat) : Nat → Nat → AgentState
  | _, 0 => st
  | attempt, fuel + 1 =>
    if o.authBook attempt then
      if 0 < attempt then
        if attempt < 2 then bookLoop o st startT endT (attempt + 1) fuel
        else { st with messages := st.messages ++ [asst .errorGeneral] }
      else if managerBook o attempt startT endT then
        { st with
          booking_confirmed := true
          messages := st.messages ++ [asst (.bookingConfirmation startT endT)] }
      else if attempt < 2 then bookLoop o st startT endT (attempt + 1) fuel
      else { st with messages := st.messages ++ [asst .errorBooking] }
    else if attempt < 2 then bookLoop o st startT endT (attempt + 1) fuel
    else { st with messages := st.messages ++ [asst .errorCalendar] }

/-- `book_appointment_node`: guards (`title` defaults to "Appointment" and is
always truthy, so `all([title, start_time, end_time])` fails exactly when a
time is missing), then the retry loop. -/
def book_appointment_node (o : Oracle) (st : AgentState) : AgentState :=
  if st.appointment_details = {} then { st with error_message := some .noDetailsForBooking }
  else
    match st.appointment_details.start_time, st.appointment_details.end_time with
    | some startT, some endT => bookLoop o st startT endT 0 3
    | _, _ => { st with error_message := some .missingBookingDetails }

/-- `handle_error_node`: routes on substrings of the stored error text ("intent"
/ "calendar" or "availability" / "booking"), appending the categorized safe
message; each `ErrKind` records which substring its source string contains. -/
def handle_error_node (st : AgentState) : AgentState :=
  let response : Msg :=
    match st.error_message with
    | some .noDetailsAvail => .errorCalendar      -- contains "availability"
    | some .noTargetDate => .errorGeneral
    | some .noDetailsForBooking => .errorBooking  -- contains "booking"
    | some .missingBookingDetails => .errorGeneral
    | some .unknown => .errorGeneral
    | none => .errorGeneral                       -- default "An unexpected error occurred"
  { st with messages := st.messages ++ [asst response] }

/-- Tail of the graph after `book_appointment`. -/
def afterBook (s : AgentState) : AgentState :=
  if s.error_message.isSome then handle_error_node s else s

/-- Tail of the graph after `confirm_booking`: on to booking once a `title` is
set on the draft appointment. -/
def afterConfirm (o : Oracle) (s : AgentState) : AgentState :=
  if s.error_message.isSome then handle_error_node s
  else if s.appointment_details.title.isSome then afterBook (book_appointment_node o s)
  else s

/-- One invocation of the compiled LangGraph (`create_booking_agent`): entry at
`greeting`, then the conditional edges exactly as wired, every edge first
diverting to `handle_error` when `error_message` is set. -/
def runAgent (o : Oracle) (st0 : AgentState) : AgentState :=
  let s1 := greeting_node st0
  if s1.error_message.isSome then handle_error_node s1
  else if 2 ≤ s1.messages.length then
    let s2 := understand_intent_node o s1
    if s2.error_message.isSome then handle_error_node s2
    else if s2.simple_greeting then s2
    else
      let s3 := collect_details_node o s2
      if s3.error_message.isSome then handle_error_node s3
      else if s3.appointment_details.target_date.isSome then
        let s4 := check_availability_node o s3
        if s4.error_message.isSome then handle_error_node s4
        else if s4.auto_selected_slot then afterBook (book_appointment_node o s4)
        else if s4.available_slots ≠ [] then afterConfirm o (confirm_booking_node s4)
        else s4
      else
        let s4 := suggest_slots_node o s3
        if s4.error_message.isSome then handle_error_node s4
        else if s4.available_slots ≠ [] then afterConfirm o (confirm_booking_node s4)
        else s4
  else s1

/-!  Helper lemmas about the slot generator. -/

theorem genSlotsGo_no_overlap (endDate : Nat) (events : List (Nat × Nat)) (durMin : Nat) :
    ∀ fuel t s, s ∈ genSlotsGo endDate events durMin fuel t →
      ∀ b ∈ events, ¬(s.start < b.2 ∧ s.stop > b.1) := by
  intro fuel
  induction fuel with
  | zero => intro t s hs; simp [genSlotsGo] at hs
  | succ n ih =>
    intro t s hs b hb
    rw [genSlotsGo] at hs
    simp only [] at hs
    split at hs
    · split at hs
      · split at hs
        · rcases List.mem_cons.mp hs with h | h
          · subst h
            rename_i hcond
            have hall := (Bool.and_eq_true _ _).mp hcond |>.1
            have := List.all_eq_true.mp hall b hb
            simp only [Bool.not_eq_eq_eq_not, Bool.not_true, Bool.and_eq_false_iff,
              decide_eq_false_iff_not] at this
            intro hc
            rcases this with h1 | h2
            · exact h1 hc.1
            · exact h2 hc.2
          · exact ih _ _ h b hb
        · exact ih _ _ hs b hb
      · exact ih _ _ hs b hb
    · simp at hs

theorem genSlotsGo_bounds (endDate : Nat) (events : List (Nat × Nat)) (durMin : Nat) :
    ∀ fuel t s, s ∈ genSlotsGo endDate events durMin fuel t →
      t ≤ s.start ∧ s.start < endDate ∧ s.stop = s.start + durMin * 60 ∧ s.stop ≤ endDate := by
  intro fuel
  induction fuel with
  | zero => intro t s hs; simp [genSlotsGo] at hs
  | succ n ih =>
    intro t s hs
    rw [genSlotsGo] at hs
    simp only [] at hs
    split at hs
    · rename_i hlt
      split at hs
      · split at hs
        · rcases List.mem_cons.mp hs with h | h
          · subst h
            rename_i hcond
            have hend := (Bool.and_eq_true _ _).mp hcond |>.2
            exact ⟨Nat.le_refl _, hlt, rfl, of_decide_eq_true hend⟩
          · have := ih _ _ h
            exact ⟨le_trans (Nat.le_add_right t 1800) this.1, this.2⟩
        · have := ih _ _ hs
          exact ⟨le_trans (Nat.le_add_right t 1800) this.1, this.2⟩
      · have := ih _ _ hs
        exact ⟨le_trans (Nat.le_add_right t 1800) this.1, this.2⟩
    · simp at hs

/-- C1. Every slot returned by the slot generator overlaps no busy interval
under the half-open overlap test: for a returned slot `s` and busy interval
`b`, not (`s.start < b.end` and `s.end > b.start`). -/
theorem slots_never_overlap_busy (startDate endDate : Nat) (events : List (Nat × Nat))
    (durMin : Nat) (s : Slot) (hs : s ∈ generateAvailableSlots startDate endDate events durMin)
    (b : Nat × Nat) (hb : b ∈ events) : ¬(s.start < b.2 ∧ s.stop > b.1) :=
  genSlotsGo_no_overlap endDate events durMin _ _ s hs b hb

/-- Witness for C1 at concrete inputs: the 9:00-10:00 slot is returned for a
9:00-12:00 window with a 10:00-11:00 busy interval, and does not overlap it. -/
theorem slots_never_overlap_busy_witness :
    (⟨9 * 3600, 10 * 3600, 60, none⟩ : Slot) ∈
        generateAvailableSlots (9 * 3600) (12 * 3600) [(10 * 3600, 11 * 3600)] 60 ∧
      ¬((9 * 3600 : Nat) < 11 * 3600 ∧ (10 * 3600 : Nat) > 10 * 3600) :=
  ⟨by decide,
    slots_never_overlap_busy (9 * 3600) (12 * 3600) [(10 * 3600, 11 * 3600)] 60
      ⟨9 * 3600, 10 * 3600, 60, none⟩ (by decide) (10 * 3600, 11 * 3600) (by decide)⟩

/-- `parse_date_preference` never emits the multi-day guard keys. -/
theorem parse_avail_keys_none (today : Nat) (u : List Char) :
    (parse_date_preference today u).is_availability_request = none ∧
      (parse_date_preference today u).availability_period = none := by
  exact ⟨rfl, rfl⟩

/-- C10. Both implementations of `parse_date_preference` return the constant
duration 60 for every utterance: a duration mentioned in the utterance is never
reflected in the parser output. -/
theorem parse_duration_always_60 (today : Nat) (u : List Char) :
    (parse_date_preference today u).duration = 60 ∧
      (parse_date_preference_tools today u).duration = 60 := by
  exact ⟨rfl, rfl⟩

/-- C4. The multi-day "this/next week" search of `suggest_time_slots` is dead
code: its guard reads `is_availability_request` / `availability_period` keys
that `parse_date_preference` never produces, so for every utterance the guard
is false, and on the failing input "next week" the function performs a single
single-day business-hours search of the day 7 days ahead, tagging no slot with
a day label, instead of the 7-day tagged/sorted/truncated search. -/
theorem multiday_branch_unreachable :
    (∀ today u, (parse_date_preference today u).is_availability_request = none) ∧
      suggest_time_slots true [] 0 "next week".toList =
        .ok (generateAvailableSlots (7 * 86400 + 9 * 3600) (7 * 86400 + 17 * 3600) [] 60) ∧
      (generateAvailableSlots (7 * 86400 + 9 * 3600) (7 * 86400 + 17 * 3600) [] 60).all
          (fun s => s.day = none) = true := by
  refine ⟨fun today u => (parse_avail_keys_none today u).1, by decide, by decide⟩

/-- The "next <weekday>" patterns, in the order the parser checks them
(Python `weekday()` numbering: 0 = Monday). -/
def weekdayPattern : Nat → List Char
  | 0 => "next monday".toList
  | 1 => "next tuesday".toList
  | 2 => "next wednesday".toList
  | 3 => "next thursday".toList
  | 4 => "next friday".toList
  | 5 => "next saturday".toList
  | 6 => "next sunday".toList
  | _ => []

/-- C6. When an utterance triggers the next-named-weekday rule (it contains
"next <weekday k>" and none of the higher-priority date patterns of the same
if/elif chain), the parser resolves the target date `(k - today_weekday) mod 7`
days ahead with zero mapped to 7; in particular on a reference day of that very
weekday the resolved date is exactly 7 days later, never the same day. -/
theorem next_weekday_resolution (today : Nat) (u : List Char) (k : Nat) (hk7 : k < 7)
    (hk : pyIn (weekdayPattern k) (lowerChars u) = true)
    (h1 : pyIn "tomorrow".toList (lowerChars u) = false)
    (h2 : pyIn "next day".toList (lowerChars u) = false)
    (h3 : pyIn "next week".toList (lowerChars u) = false)
    (hother : ∀ j, j < 7 → j ≠ k → pyIn (weekdayPattern j) (lowerChars u) = false) :
    (parse_date_preference today u).target_date =
        today + (if (k + 7 - today % 7) % 7 = 0 then 7 else (k + 7 - today % 7) % 7) ∧
      (today % 7 = k → (parse_date_preference today u).target_date = today + 7) := by
  have hm : (parse_date_preference today u).target_date = parseTargetDate today (lowerChars u) :=
    rfl
  have hdelta : parseTargetDate today (lowerChars u) = today + nextWeekdayDelta k (today % 7) := by
    interval_cases k
    · simp only [weekdayPattern] at hk
      unfold parseTargetDate
      rw [h1, h2, h3, hk]
      simp
    · have o0 := hother 0 (by omega) (by omega)
      simp only [weekdayPattern] at hk o0
      unfold parseTargetDate
      rw [h1, h2, h3, o0, hk]
      simp
    · have o0 := hother 0 (by omega) (by omega)
      have o1 := hother 1 (by omega) (by omega)
      simp only [weekdayPattern] at hk o0 o1
      unfold parseTargetDate
      rw [h1, h2, h3, o0, o1, hk]
      simp
    · have o0 := hother 0 (by omega) (by omega)
      have o1 := hother 1 (by omega) (by omega)
      have o2 := hother 2 (by omega) (by omega)
      simp only [weekdayPattern] at hk o0 o1 o2
      unfold parseTargetDate
      rw [h1, h2, h3, o0, o1, o2, hk]
      simp
    · have o0 := hother 0 (by omega) (by omega)
      have o1 := hother 1 (by omega) (by omega)
      have o2 := hother 2 (by omega) (by omega)
      have o3 := hother 3 (by omega) (by omega)
      simp only [weekdayPattern] at hk o0 o1 o2 o3
      unfold parseTargetDate
      rw [h1, h2, h3, o0, o1, o2, o3, hk]
      simp
    · have o0 := hother 0 (by omega) (by omega)
      have o1 := hother 1 (by omega) (by omega)
      have o2 := hother 2 (by omega) (by omega)
      have o3 := hother 3 (by omega) (by omega)
      have o4 := hother 4 (by omega) (by omega)
      simp only [weekdayPattern] at hk o0 o1 o2 o3 o4
      unfold parseTargetDate
      rw [h1, h2, h3, o0, o1, o2, o3, o4, hk]
      simp
    · have o0 := hother 0 (by omega) (by omega)
      have o1 := hother 1 (by omega) (by omega)
      have o2 := hother 2 (by omega) (by omega)
      have o3 := hother 3 (by omega) (by omega)
      have o4 := hother 4 (by omega) (by omega)
      have o5 := hother 5 (by omega) (by omega)
      simp only [weekdayPattern] at hk o0 o1 o2 o3 o4 o5
      unfold parseTargetDate
      rw [h1, h2, h3, o0, o1, o2, o3, o4, o5, hk]
      simp
  rw [hm, hdelta]
  unfold nextWeekdayDelta
  have h7 : today % 7 < 7 := Nat.mod_lt _ (by norm_num)
  constructor
  · rfl
  · intro hsame
    rw [hsame]
    simp only [Nat.add_sub_cancel]
    norm_num

/-- Witness for C6: "next friday" said on a Friday (day 4, weekday 4) resolves
to day 11, exactly 7 days later. -/
theorem next_weekday_resolution_witness :
    pyIn (weekdayPattern 4) (lowerChars "next friday".toList) = true ∧
      (parse_date_preference 4 "next friday".toList).target_date = 4 + 7 :=
  ⟨by decide,
    (next_weekday_resolution 4 "next friday".toList 4 (by decide) (by decide) (by decide)
      (by decide) (by decide) (by decide)).2 (by decide)⟩

/-- C7 (amended). Malformed times are ignored without raising only on the
24-hour path: when no 12-hour `am`/`pm` form matches, the returned
`start_hour` is always a valid hour below 24, and a malformed `HH:MM` token
(hour above 23 or minute above 59) makes the parser fall back to the
business-hours default `start_hour = 10` (skipping the keyword windows, since
the elif chain already took the 24-hour branch). The 12-hour path performs no
such validation (see the counterexample). -/
theorem malformed_24h_time_ignored (today : Nat) (u : List Char)
    (h12 : search12 (lowerChars u) = none) :
    (parse_date_preference today u).start_hour < 24 ∧
      (∀ h m, search24 (lowerChars u) = some (h, m) → 24 ≤ h ∨ 60 ≤ m →
        (parse_date_preference today u).start_hour = 10 ∧
          (parse_date_preference today u).time_preference = .business) := by
  have hsh : (parse_date_preference today u).start_hour = (parseTimePart (lowerChars u)).2 :=
    rfl
  have htp :
      (parse_date_preference today u).time_preference = (parseTimePart (lowerChars u)).1 :=
    rfl
  rw [hsh, htp]
  unfold parseTimePart
  rw [h12]
  cases h24 : search24 (lowerChars u) with
  | some r =>
    obtain ⟨h, m⟩ := r
    dsimp only
    constructor
    · split
      · rename_i hvalid
        exact Nat.lt_of_lt_of_le (of_decide_eq_true ((Bool.and_eq_true _ _).mp hvalid).1)
          (le_refl 24)
      · norm_num
    · intro h' m' heq hbad
      obtain ⟨rfl, rfl⟩ : h = h' ∧ m = m' := by
        injection heq with heq'
        exact ⟨congrArg Prod.fst heq', congrArg Prod.snd heq'⟩
      split
      · rename_i hvalid
        have hh := of_decide_eq_true ((Bool.and_eq_true _ _).mp hvalid).1
        have hm := of_decide_eq_true ((Bool.and_eq_true _ _).mp hvalid).2
        omega
      · exact ⟨rfl, rfl⟩
  | none =>
    dsimp only
    refine ⟨?_, fun h m heq => by simp at heq⟩
    split
    · norm_num
    · split
      · norm_num
      · split <;> norm_num

/-- Witness for C7 at the input "25:99 morning": no 12-hour match, the 24-hour
token is malformed, and the parser returns the in-range default hour 10 with
the business-hours window (the morning keyword is skipped). -/
theorem malformed_24h_time_ignored_witness :
    search12 (lowerChars "25:99 morning".toList) = none ∧
      search24 (lowerChars "25:99 morning".toList) = some (25, 99) ∧
      (parse_date_preference 0 "25:99 morning".toList).start_hour < 24 ∧
      (parse_date_preference 0 "25:99 morning".toList).start_hour = 10 ∧
      (parse_date_preference 0 "25:99 morning".toList).time_preference = .business := by
  have main := malformed_24h_time_ignored 0 "25:99 morning".toList (by decide)
  have inst := main.2 25 99 (by decide) (by decide)
  exact ⟨by decide, by decide, main.1, inst.1, inst.2⟩

/-- Counterexample to C7 as stated: the 12-hour path is not validated. On the
input "13 pm" the matched hour 13 is converted by the pm rule to 25, and the
parser returns the out-of-range `start_hour = 25`. -/
theorem twelve_hour_path_unvalidated :
    (parse_date_preference 0 "13 pm".toList).start_hour = 25 ∧
      23 < (parse_date_preference 0 "13 pm".toList).start_hour := by
  exact ⟨by decide, by decide⟩

instance instSlotDistTotal (tt : Nat) :
    IsTotal Slot fun a b => slotDist tt a ≤ slotDist tt b :=
  ⟨fun _ _ => Nat.le_total _ _⟩

instance instSlotDistTrans (tt : Nat) :
    IsTrans Slot fun a b => slotDist tt a ≤ slotDist tt b :=
  ⟨fun _ _ _ => Nat.le_trans⟩

/-- For a specific-time preference with a valid requested hour (at most 23),
`suggest_time_slots` raises nothing and is a single search of the window
`[max 9 (h-1):00, min 17 (h+1):59:59]`, stably sorted by distance to the
requested hour; no other window is consulted. -/
theorem suggest_specific_characterization (authOk : Bool) (events : List (Nat × Nat))
    (today : Nat) (u : List Char) (h m : Nat)
    (hspec : (parse_date_preference today u).time_preference = .specific h m)
    (hvalid : (parse_date_preference today u).start_hour ≤ 23) :
    suggest_time_slots authOk events today u =
      .ok ((check_availability authOk events
          ((parse_date_preference today u).target_date * 86400 +
            max 9 ((parse_date_preference today u).start_hour - 1) * 3600)
          ((parse_date_preference today u).target_date * 86400 +
            min 17 ((parse_date_preference today u).start_hour + 1) * 3600 + 59 * 60 + 59)
          60).insertionSort
        (fun a b =>
          slotDist ((parse_date_preference today u).target_date * 86400 +
              (parse_date_preference today u).start_hour * 3600) a ≤
            slotDist ((parse_date_preference today u).target_date * 86400 +
              (parse_date_preference today u).start_hour * 3600) b)) := by
  have e1 : (23 < max 9 ((parse_date_preference today u).start_hour - 1)) = False :=
    eq_false (by omega)
  have e2 : (23 < (parse_date_preference today u).start_hour) = False :=
    eq_false (by omega)
  simp only [suggest_time_slots, (parse_avail_keys_none today u).1, Option.getD_none,
    Bool.false_and, Bool.false_eq_true, if_false, hspec, e1, e2]

/-- For a specific-time preference whose requested hour exceeds 23 (possible
only through the unvalidated 12-hour path), `suggest_time_slots` raises
`ValueError`: at the window-building `replace(hour=max(9, start_hour-1))` for
hours of at least 25, or at the proximity sort's `replace(hour=start_hour)`
for hour 24. -/
theorem suggest_specific_raises (authOk : Bool) (events : List (Nat × Nat))
    (today : Nat) (u : List Char) (h m : Nat)
    (hspec : (parse_date_preference today u).time_preference = .specific h m)
    (hbad : 24 ≤ (parse_date_preference today u).start_hour) :
    suggest_time_slots authOk events today u = .error .hourOutOfRange := by
  by_cases hc : 25 ≤ (parse_date_preference today u).start_hour
  · have e1 : (23 < max 9 ((parse_date_preference today u).start_hour - 1)) = True :=
      eq_true (by omega)
    simp only [suggest_time_slots, (parse_avail_keys_none today u).1, Option.getD_none,
      Bool.false_and, Bool.false_eq_true, if_false, hspec, e1, if_true]
  · have e1 : (23 < max 9 ((parse_date_preference today u).start_hour - 1)) = False :=
      eq_false (by omega)
    have e2 : (23 < (parse_date_preference today u).start_hour) = True := eq_true (by omega)
    simp only [suggest_time_slots, (parse_avail_keys_none today u).1, Option.getD_none,
      Bool.false_and, Bool.false_eq_true, if_false, hspec, e1, e2, if_true]

/-- C3 (amended). For a specific-time request there is no three-tier ladder.
When the requested hour is a valid clock hour (at most 23) the code performs
one search of the single window from `max 9 (h-1):00` to `min 17 (h+1):59:59`
on the target day and returns all its slots ordered by nondecreasing absolute
distance from the requested hour (stable, so earlier times come first on
ties): every returned slot starts inside that window and ends by its end; an
exact-hour slot is returned first but the other window slots are returned with
it, and an empty window is never widened to two hours. When the unvalidated
12-hour path produced an hour of 24 or more, `datetime.replace` raises
`ValueError` instead of any slots being returned. -/
theorem specific_time_single_window (authOk : Bool) (events : List (Nat × Nat))
    (today : Nat) (u : List Char) (h m : Nat)
    (hspec : (parse_date_preference today u).time_preference = .specific h m) :
    ((parse_date_preference today u).start_hour ≤ 23 →
      ∃ slots, suggest_time_slots authOk events today u = .ok slots ∧
        (∀ s ∈ slots,
          (parse_date_preference today u).target_date * 86400 +
              max 9 ((parse_date_preference today u).start_hour - 1) * 3600 ≤ s.start ∧
            s.stop ≤ (parse_date_preference today u).target_date * 86400 +
              min 17 ((parse_date_preference today u).start_hour + 1) * 3600 + 59 * 60 + 59) ∧
        slots.Sorted
          (fun a b =>
            slotDist ((parse_date_preference today u).target_date * 86400 +
                (parse_date_preference today u).start_hour * 3600) a ≤
              slotDist ((parse_date_preference today u).target_date * 86400 +
                (parse_date_preference today u).start_hour * 3600) b)) ∧
      (24 ≤ (parse_date_preference today u).start_hour →
        suggest_time_slots authOk events today u = .error .hourOutOfRange) := by
  constructor
  · intro hvalid
    refine ⟨_, suggest_specific_characterization authOk events today u h m hspec hvalid,
      ?_, ?_⟩
    · intro s hs
      have hmem := List.mem_insertionSort _ |>.mp hs
      unfold check_availability at hmem
      split at hmem
      · have := genSlotsGo_bounds _ _ _ _ _ _ hmem
        exact ⟨this.1, this.2.2.2⟩
      · simp at hmem
    · exact List.sorted_insertionSort _ _
  · exact suggest_specific_raises authOk events today u h m hspec

/-- Witness for C3 (amended) at "2 pm" with a free calendar (the windowed,
distance-sorted slots are returned) and at "13 pm" (the hour 25 makes
`suggest_time_slots` raise). -/
theorem specific_time_single_window_witness :
    (parse_date_preference 0 "2 pm".toList).time_preference = .specific 14 0 ∧
      (∃ slots, suggest_time_slots true [] 0 "2 pm".toList = .ok slots ∧
        (∀ s ∈ slots,
          (parse_date_preference 0 "2 pm".toList).target_date * 86400 +
              max 9 ((parse_date_preference 0 "2 pm".toList).start_hour - 1) * 3600 ≤ s.start ∧
            s.stop ≤ (parse_date_preference 0 "2 pm".toList).target_date * 86400 +
              min 17 ((parse_date_preference 0 "2 pm".toList).start_hour + 1) * 3600 +
                59 * 60 + 59) ∧
        slots.Sorted
          (fun a b =>
            slotDist ((parse_date_preference 0 "2 pm".toList).target_date * 86400 +
                (parse_date_preference 0 "2 pm".toList).start_hour * 3600) a ≤
              slotDist ((parse_date_preference 0 "2 pm".toList).target_date * 86400 +
                (parse_date_preference 0 "2 pm".toList).start_hour * 3600) b)) ∧
      suggest_time_slots true [] 0 "13 pm".toList = .error .hourOutOfRange :=
  ⟨by decide,
    (specific_time_single_window true [] 0 "2 pm".toList 14 0 (by decide)).1 (by decide),
    (specific_time_single_window true [] 0 "13 pm".toList 25 0 (by decide)).2 (by decide)⟩

/-- Counterexample to C3 as stated: on "tomorrow at 2 pm" with a free calendar
the exact 14:00-15:00 slot exists, so the spec's ladder stops at the exact
tier and returns that slot alone, while the code returns the whole one-hour-
each-side window (four slots) sorted by proximity. The ladder
(`specLadderSuggest`, written from the spec's words) and the code
(`suggest_time_slots`) disagree. -/
theorem ladder_vs_code_counterexample :
    suggest_time_slots true [] 0 "tomorrow at 2 pm".toList ≠
        .ok (specLadderSuggest true [] 0 "tomorrow at 2 pm".toList) ∧
      specLadderSuggest true [] 0 "tomorrow at 2 pm".toList =
        [⟨136800, 140400, 60, none⟩] ∧
      suggest_time_slots true [] 0 "tomorrow at 2 pm".toList =
        .ok [⟨136800, 140400, 60, none⟩, ⟨135000, 138600, 60, none⟩,
          ⟨138600, 142200, 60, none⟩, ⟨133200, 136800, 60, none⟩] := by
  refine ⟨by decide, by decide, by decide⟩

/-- The fresh single-utterance state the chat endpoint builds for "hi". -/
def initialHi : AgentState :=
  { messages := [{ role := .user, content := .text "hi".toList }] }

/-- Counterexample to C2 as stated: the invocation on the single utterance
"hi" appends two assistant messages, not exactly one — `greeting_node` always
appends the general greeting and the intent node's simple-greeting pre-filter
appends a second one. -/
theorem hi_turn_not_single_message :
    assistantCount (runAgent {} initialHi).messages = 2 ∧
      assistantCount initialHi.messages = 0 :=
  ⟨by decide, by decide⟩

/-- C2 (amended). Each traversed node appends exactly one assistant message,
so one invocation appends one message per node visited, never zero: the
greeting node alone always appends exactly one, and the "hi" turn (which
visits `greeting` and `understand_intent`) ends with `simple_greeting` set,
exactly two new assistant messages — both the general greeting — and no
error. -/
theorem hi_turn_behavior :
    (∀ st : AgentState, assistantCount (greeting_node st).messages =
        assistantCount st.messages + 1) ∧
      (runAgent {} initialHi).simple_greeting = true ∧
      (runAgent {} initialHi).messages =
        initialHi.messages ++ [asst .generalGreeting, asst .generalGreeting] ∧
      (runAgent {} initialHi).error_message = none := by
  refine ⟨fun st => ?_, by decide, by decide, by decide⟩
  simp [greeting_node, assistantCount, asst]

/-- C5. In `confirm_booking_node` the reply is resolved with fixed priority:
an in-range numeric index (the first digit run, as matched by
`(?:slot\s+)?(\d+)`) selects that slot regardless of any textual or keyword
match; otherwise the first slot whose time display occurs in the reply is
selected regardless of any confirmation keyword; a reply that resolves to no
slot and contains no confirmation keyword only re-prompts, leaving every field
but `messages` unchanged. Display numbering is 1-based over the stored
0-based list, so reply "2" selects `available_slots[1]`. -/
theorem confirm_booking_resolution (st : AgentState) (u : List Char)
    (hlast : lastUserText st.messages = some u) :
    (∀ n s, firstNumberToken (lowerChars u) = some n → 1 ≤ n →
        n ≤ st.available_slots.length → st.available_slots[n - 1]? = some s →
        (confirm_booking_node st).appointment_details.selected_slot = some s) ∧
      (∀ s,
        (match firstNumberToken (lowerChars u) with
          | some n => ¬(1 ≤ n ∧ n ≤ st.available_slots.length)
          | none => True) →
        st.available_slots.find? (fun t => pyIn (lowerChars t.time) (lowerChars u)) = some s →
        (confirm_booking_node st).appointment_details.selected_slot = some s) ∧
      (resolveSlot st.available_slots (lowerChars u) = none →
        confirmation_keywords.all (fun k => !pyIn k (lowerChars u)) = true →
        ∃ msg, confirm_booking_node st = { st with messages := st.messages ++ [asst msg] }) := by
  have hne : st.messages ≠ [] := by
    intro h
    rw [h] at hlast
    simp [lastUserText] at hlast
  have hnode :
      confirm_booking_node st =
        (let lu := lowerChars u
         let isConfirming := confirmation_keywords.any fun k => pyIn k lu
         match resolveSlot st.available_slots lu with
         | some s =>
           let shownNum :=
             if st.available_slots ≠ [] then
               match firstNumberToken lu with
               | some n => n
               | none => 1
             else 1
           { st with
             appointment_details :=
               { st.appointment_details with
                 title := some (mkTitle st.appointment_details.parsed_input)
                 start_time := some s.start
                 end_time := some s.stop
                 start_hour := some (s.start / 3600 % 24)
                 selected_slot := some s }
             messages := st.messages ++ [asst (.slotSelectionConfirmation shownNum s)] }
         | none =>
           if isConfirming then
             if st.appointment_details.start_time.isSome ∧
                 st.appointment_details.end_time.isSome then
               { st with messages := st.messages ++ [asst .processingResponse] }
             else { st with messages := st.messages ++ [asst .clarificationNeeded] }
           else if st.available_slots ≠ [] then
             { st with messages := st.messages ++ [asst (.slotSuggestion st.available_slots none)] }
           else { st with messages := st.messages ++ [asst .clarificationGeneral] }) := by
    unfold confirm_booking_node
    rw [if_neg hne, hlast]
  refine ⟨?_, ?_, ?_⟩
  · intro n s hnum h1 h2 hget
    have hslots : st.available_slots ≠ [] := by
      intro h
      rw [h] at h2
      simp at h2
      omega
    have hres : resolveSlot st.available_slots (lowerChars u) = some s := by
      simp [resolveSlot, hnum, hget, hslots, h1, h2]
    rw [hnode]
    simp only [hres]
  · intro s hnum hfind
    have hslots : st.available_slots ≠ [] := by
      intro h
      rw [h] at hfind
      simp at hfind
    have hres : resolveSlot st.available_slots (lowerChars u) = some s := by
      cases hx : firstNumberToken (lowerChars u) with
      | some n =>
        rw [hx] at hnum
        have hnum' : ¬(1 ≤ n ∧ n ≤ st.available_slots.length) := hnum
        simp [resolveSlot, hx, hfind, hslots, hnum']
      | none => simp [resolveSlot, hx, hfind, hslots]
    rw [hnode]
    simp only [hres]
  · intro hres hkw
    rw [hnode]
    simp only [hres]
    have hconf : (confirmation_keywords.any fun k => pyIn k (lowerChars u)) = false := by
      rw [← Bool.not_eq_true]
      intro h
      obtain ⟨k, hk, hpk⟩ := List.any_eq_true.mp h
      have := List.all_eq_true.mp hkw k hk
      simp [hpk] at this
    rw [hconf]
    simp only [Bool.false_eq_true, if_false]
    split
    · exact ⟨.slotSuggestion st.available_slots none, rfl⟩
    · exact ⟨.clarificationGeneral, rfl⟩

/-- Witness for C5: reply "2" with three slots shown selects the second stored
slot (`candidate_slots[1]`), and the unresolved reply "maybe later" only
re-prompts. -/
theorem confirm_booking_resolution_witness :
    lastUserText [{ role := .user, content := .text "2".toList }] = some "2".toList ∧
      (confirm_booking_node
          { messages := [{ role := .user, content := .text "2".toList }]
            available_slots :=
              [⟨1, "09:00 AM".toList, 60, 32400, 36000⟩,
               ⟨2, "10:00 AM".toList, 60, 36000, 39600⟩,
               ⟨3, "11:00 AM".toList, 60, 39600, 43200⟩] }).appointment_details.selected_slot =
        some ⟨2, "10:00 AM".toList, 60, 36000, 39600⟩ := by
  refine ⟨by decide, ?_⟩
  exact (confirm_booking_resolution
    { messages := [{ role := .user, content := .text "2".toList }]
      available_slots :=
        [⟨1, "09:00 AM".toList, 60, 32400, 36000⟩,
         ⟨2, "10:00 AM".toList, 60, 36000, 39600⟩,
         ⟨3, "11:00 AM".toList, 60, 39600, 43200⟩] }
    "2".toList (by decide)).1 2 ⟨2, "10:00 AM".toList, 60, 36000, 39600⟩
    (by decide) (by decide) (by decide) (by decide)

/-- C9. When calendar authentication fails, both availability nodes surface a
calendar-unavailable style error message (the inline calendar-trouble text in
`check_availability_node`, `error_response("calendar")` in
`suggest_slots_node`) without raising and without setting `error_message`, and
that message is a different template from every ordinary empty-availability
"no availability" message. -/
theorem auth_failure_surfaces_calendar_error (o : Oracle) (st : AgentState) (d : Nat)
    (hauth : o.authCheck = false)
    (hne : st.appointment_details ≠ {})
    (htd : st.appointment_details.target_date = some d) :
    check_availability_node o st =
        { st with
          available_slots := []
          messages := st.messages ++ [asst .calendarTrouble] } ∧
      (Msg.calendarTrouble ≠ .noAvailability ∧
        Msg.calendarTrouble ≠ .noSlotsForDate d ∧
        Msg.calendarTrouble ≠ .noSlotsForDateAlt d) ∧
      (∀ u, lastUserText st.messages = some u →
        suggest_slots_node o st =
            { st with
              available_slots := []
              messages := st.messages ++ [asst .errorCalendar] } ∧
          Msg.errorCalendar ≠ .noAvailability) := by
  refine ⟨?_, ⟨by simp, by simp, by simp⟩, ?_⟩
  · unfold check_availability_node
    rw [if_neg hne, htd]
    simp only [hauth, Bool.false_eq_true, if_false]
  · intro u hlast
    have hmsgs : st.messages ≠ [] := by
      intro h
      rw [h] at hlast
      simp [lastUserText] at hlast
    refine ⟨?_, by simp⟩
    unfold suggest_slots_node
    rw [if_neg hmsgs, hlast]
    simp only [hauth, Bool.false_eq_true, if_false]

/-- Witness for C9: a state with a parsed target date and one user utterance,
against an oracle whose authentication fails. -/
theorem auth_failure_surfaces_calendar_error_witness :
    ({ authCheck := false } : Oracle).authCheck = false ∧
      (check_availability_node { authCheck := false }
          { messages := [{ role := .user, content := .text "tomorrow".toList }]
            appointment_details := { target_date := some 1 } } =
        { messages :=
            [{ role := .user, content := .text "tomorrow".toList }, asst .calendarTrouble]
          appointment_details := { target_date := some 1 }
          available_slots := [] } ∧
      suggest_slots_node { authCheck := false }
          { messages := [{ role := .user, content := .text "tomorrow".toList }]
            appointment_details := { target_date := some 1 } } =
        { messages :=
            [{ role := .user, content := .text "tomorrow".toList }, asst .errorCalendar]
          appointment_details := { target_date := some 1 }
          available_slots := [] }) := by
  have main := auth_failure_surfaces_calendar_error { authCheck := false }
    { messages := [{ role := .user, content := .text "tomorrow".toList }]
      appointment_details := { target_date := some 1 } } 1 rfl (by decide) rfl
  exact ⟨rfl, main.1, (main.2.2 "tomorrow".toList (by decide)).1⟩

/-!  Field-preservation lemmas feeding the C8 invariant: only
`book_appointment_node` ever writes `booking_confirmed`. -/

theorem greeting_node_fields (st : AgentState) :
    (greeting_node st).booking_confirmed = st.booking_confirmed ∧
      (greeting_node st).error_message = st.error_message :=
  ⟨rfl, rfl⟩

theorem handle_error_node_fields (st : AgentState) :
    (handle_error_node st).booking_confirmed = st.booking_confirmed ∧
      (handle_error_node st).error_message = st.error_message :=
  ⟨rfl, rfl⟩

theorem intentAttempts_fields (o : Oracle) (st : AgentState) :
    ∀ fuel attempt,
      (intentAttempts o st attempt fuel).booking_confirmed = st.booking_confirmed ∧
        (intentAttempts o st attempt fuel).error_message = st.error_message := by
  intro fuel
  induction fuel with
  | zero => intro attempt; exact ⟨rfl, rfl⟩
  | succ n ih =>
    intro attempt
    simp only [intentAttempts]
    cases o.intentLlm attempt with
    | ok intent delta => exact ⟨rfl, rfl⟩
    | badJson =>
      dsimp only
      split
      · exact ⟨rfl, rfl⟩
      · exact ih (attempt + 1)
    | empty =>
      dsimp only
      split
      · exact ⟨rfl, rfl⟩
      · exact ih (attempt + 1)

theorem understand_intent_node_fields (o : Oracle) (st : AgentState) :
    (understand_intent_node o st).booking_confirmed = st.booking_confirmed ∧
      (understand_intent_node o st).error_message = st.error_message := by
  unfold understand_intent_node
  simp only []
  split
  · exact ⟨rfl, rfl⟩
  · split
    · exact ⟨rfl, rfl⟩
    · split
      · exact ⟨rfl, rfl⟩
      · split
        · exact ⟨rfl, rfl⟩
        · split
          · exact ⟨rfl, rfl⟩
          · exact intentAttempts_fields o st 3 0

theorem collect_details_node_fields (o : Oracle) (st : AgentState) :
    (collect_details_node o st).booking_confirmed = st.booking_confirmed ∧
      (collect_details_node o st).error_message = st.error_message := by
  unfold collect_details_node
  simp only []
  split
  · exact ⟨rfl, rfl⟩
  · split
    · exact ⟨rfl, rfl⟩
    · exact ⟨rfl, rfl⟩

theorem presentSlots_fields (st : AgentState) (targetDay : Nat) (available : List Slot) :
    (presentSlots st targetDay available).booking_confirmed = st.booking_confirmed ∧
      (presentSlots st targetDay available).error_message = st.error_message := by
  unfold presentSlots
  simp only []
  split
  · split
    · exact ⟨rfl, rfl⟩
    · exact ⟨rfl, rfl⟩
  · exact ⟨rfl, rfl⟩

theorem check_availability_node_booking (o : Oracle) (st : AgentState) :
    (check_availability_node o st).booking_confirmed = st.booking_confirmed := by
  unfold check_availability_node
  simp only []
  split
  · rfl
  · split
    · rfl
    · split
      · split
        · split
          · rfl
          · split
            · split
              · rfl
              · exact (presentSlots_fields _ _ _).1
            · exact (presentSlots_fields _ _ _).1
        · exact (presentSlots_fields _ _ _).1
      · rfl

theorem suggest_slots_node_fields (o : Oracle) (st : AgentState) :
    (suggest_slots_node o st).booking_confirmed = st.booking_confirmed ∧
      (suggest_slots_node o st).error_message = st.error_message := by
  unfold suggest_slots_node
  simp only []
  split
  · exact ⟨rfl, rfl⟩
  · split
    · exact ⟨rfl, rfl⟩
    · split
      · split
        · exact ⟨rfl, rfl⟩
        · split
          · exact ⟨rfl, rfl⟩
          · exact ⟨rfl, rfl⟩
      · exact ⟨rfl, rfl⟩

theorem confirm_booking_node_fields (st : AgentState) :
    (confirm_booking_node st).booking_confirmed = st.booking_confirmed ∧
      (confirm_booking_node st).error_message = st.error_message := by
  unfold confirm_booking_node
  simp only []
  split
  · exact ⟨rfl, rfl⟩
  · split
    · exact ⟨rfl, rfl⟩
    · split
      · exact ⟨rfl, rfl⟩
      · split
        · split
          · exact ⟨rfl, rfl⟩
          · exact ⟨rfl, rfl⟩
        · split
          · exact ⟨rfl, rfl⟩
          · exact ⟨rfl, rfl⟩

theorem bookLoop_error (o : Oracle) (st : AgentState) (startT endT : Nat) :
    ∀ fuel attempt, (bookLoop o st startT endT attempt fuel).error_message = st.error_message := by
  intro fuel
  induction fuel with
  | zero => intro attempt; rfl
  | succ n ih =>
    intro attempt
    simp only [bookLoop]
    split
    · split
      · split
        · exact ih (attempt + 1)
        · rfl
      · split
        · rfl
        · split
          · exact ih (attempt + 1)
          · rfl
    · split
      · exact ih (attempt + 1)
      · rfl

theorem bookLoop_booking (o : Oracle) (st : AgentState) (startT endT : Nat) :
    ∀ fuel attempt, attempt ≤ 2 →
      (bookLoop o st startT endT attempt fuel).booking_confirmed = true →
      st.booking_confirmed = true ∨ ∃ a, a ≤ 2 ∧ o.insertOk a = true := by
  intro fuel
  induction fuel with
  | zero => intro attempt _ h; exact Or.inl h
  | succ n ih =>
    intro attempt ha h
    simp only [bookLoop] at h
    split at h
    · split at h
      · split at h
        · exact ih (attempt + 1) (by omega) h
        · exact Or.inl h
      · split at h
        · refine Or.inr ⟨attempt, ha, ?_⟩
          rename_i hmb
          unfold managerBook at hmb
          split at hmb
          · exact absurd hmb (by simp)
          · exact hmb
        · split at h
          · exact ih (attempt + 1) (by omega) h
          · exact Or.inl h
    · split at h
      · exact ih (attempt + 1) (by omega) h
      · exact Or.inl h

theorem book_appointment_node_booking (o : Oracle) (st : AgentState) :
    (book_appointment_node o st).booking_confirmed = true →
      st.booking_confirmed = true ∨ ∃ a, a ≤ 2 ∧ o.insertOk a = true := by
  unfold book_appointment_node
  split
  · exact fun h => Or.inl h
  · split
    · exact bookLoop_booking o st _ _ 3 0 (by omega)
    · exact fun h => Or.inl h

theorem book_appointment_node_error_or (o : Oracle) (st : AgentState) :
    (book_appointment_node o st).error_message = st.error_message ∨
      (book_appointment_node o st).booking_confirmed = st.booking_confirmed := by
  unfold book_appointment_node
  split
  · exact Or.inr rfl
  · split
    · exact Or.inl (bookLoop_error o st _ _ 3 0)
    · exact Or.inr rfl

theorem book_appointment_node_error_of_booking (o : Oracle) (st : AgentState)
    (hb : st.booking_confirmed = false)
    (h : (book_appointment_node o st).booking_confirmed = true) :
    (book_appointment_node o st).error_message = st.error_message := by
  rcases book_appointment_node_error_or o st with he | hbk
  · exact he
  · rw [hbk, hb] at h
    cases h

theorem afterBook_c8 (o : Oracle) (s : AgentState)
    (hb : s.booking_confirmed = false) (he : s.error_message = none) :
    ((afterBook (book_appointment_node o s)).booking_confirmed = true →
        ∃ a, a ≤ 2 ∧ o.insertOk a = true) ∧
      ¬((afterBook (book_appointment_node o s)).booking_confirmed = true ∧
        (afterBook (book_appointment_node o s)).error_message.isSome = true) := by
  by_cases hc : (book_appointment_node o s).error_message.isSome = true
  · have hred : afterBook (book_appointment_node o s) = handle_error_node (book_appointment_node o s) := by
      simp [afterBook, hc]
    rw [hred]
    have hbk :
        (handle_error_node (book_appointment_node o s)).booking_confirmed =
          (book_appointment_node o s).booking_confirmed :=
      (handle_error_node_fields _).1
    constructor
    · intro h
      rw [hbk] at h
      rcases book_appointment_node_booking o s h with h' | h'
      · rw [hb] at h'; cases h'
      · exact h'
    · rintro ⟨h1, _⟩
      rw [hbk] at h1
      have herr := book_appointment_node_error_of_booking o s hb h1
      rw [herr, he] at hc
      simp at hc
  · have hred : afterBook (book_appointment_node o s) = book_appointment_node o s := by
      simp [afterBook, hc]
    rw [hred]
    constructor
    · intro h
      rcases book_appointment_node_booking o s h with h' | h'
      · rw [hb] at h'; cases h'
      · exact h'
    · rintro ⟨_, h2⟩
      exact hc h2

theorem afterConfirm_c8 (o : Oracle) (s : AgentState)
    (hb : s.booking_confirmed = false) (he : s.error_message = none) :
    ((afterConfirm o (confirm_booking_node s)).booking_confirmed = true →
        ∃ a, a ≤ 2 ∧ o.insertOk a = true) ∧
      ¬((afterConfirm o (confirm_booking_node s)).booking_confirmed = true ∧
        (afterConfirm o (confirm_booking_node s)).error_message.isSome = true) := by
  have hb' : (confirm_booking_node s).booking_confirmed = false := by
    rw [(confirm_booking_node_fields s).1, hb]
  have he' : (confirm_booking_node s).error_message = none := by
    rw [(confirm_booking_node_fields s).2, he]
  unfold afterConfirm
  rw [he']
  simp only [Option.isSome_none, Bool.false_eq_true, if_false]
  split
  · exact afterBook_c8 o _ hb' he'
  · constructor
    · intro h
      rw [hb'] at h
      cases h
    · rintro ⟨h1, _⟩
      rw [hb'] at h1
      cases h1

/-- C8. In every state the graph can produce from a fresh turn state (no error
set, booking not yet confirmed — what the chat endpoint always builds),
`booking_confirmed` is true only if the create-event call of the booking
gateway returned success on one of the (at most three) booking attempts of the
run, and the terminal signals `error_message` and `booking_confirmed` are never
both set on the same state. -/
theorem booking_confirmed_requires_success (o : Oracle) (st0 : AgentState)
    (hb : st0.booking_confirmed = false) (he : st0.error_message = none) :
    ((runAgent o st0).booking_confirmed = true → ∃ a, a ≤ 2 ∧ o.insertOk a = true) ∧
      ¬((runAgent o st0).booking_confirmed = true ∧
        (runAgent o st0).error_message.isSome = true) := by
  have hg : (greeting_node st0).booking_confirmed = false := by
    rw [(greeting_node_fields st0).1, hb]
  have hge : (greeting_node st0).error_message = none := by
    rw [(greeting_node_fields st0).2, he]
  have hu : (understand_intent_node o (greeting_node st0)).booking_confirmed = false := by
    rw [(understand_intent_node_fields o _).1, hg]
  have hue : (understand_intent_node o (greeting_node st0)).error_message = none := by
    rw [(understand_intent_node_fields o _).2, hge]
  have hcl :
      (collect_details_node o (understand_intent_node o (greeting_node st0))).booking_confirmed =
        false := by
    rw [(collect_details_node_fields o _).1, hu]
  have hcle :
      (collect_details_node o (understand_intent_node o (greeting_node st0))).error_message =
        none := by
    rw [(collect_details_node_fields o _).2, hue]
  unfold runAgent
  simp only []
  split
  · rename_i hcond
    rw [hge] at hcond
    simp at hcond
  · split
    · split
      · rename_i hcond
        rw [hue] at hcond
        simp at hcond
      · split
        · -- terminal: simple greeting
          refine ⟨fun h => absurd h (by simp [hu]), fun h => by simp [hu] at h⟩
        · split
          · rename_i hcond
            rw [hcle] at hcond
            simp at hcond
          · split
            · -- check_availability branch
              split
              · rename_i hcond
                -- handle_error after check_availability: booking still false
                have hbk :
                    (handle_error_node (check_availability_node o
                        (collect_details_node o (understand_intent_node o
                          (greeting_node st0))))).booking_confirmed = false := by
                  rw [(handle_error_node_fields _).1, check_availability_node_booking, hcl]
                exact ⟨fun h => absurd h (by simp [hbk]), fun h => by simp [hbk] at h⟩
              · rename_i hcond
                have hce : (check_availability_node o (collect_details_node o
                    (understand_intent_node o (greeting_node st0)))).error_message = none := by
                  cases hx : (check_availability_node o (collect_details_node o
                      (understand_intent_node o (greeting_node st0)))).error_message with
                  | none => rfl
                  | some e => rw [hx] at hcond; simp at hcond
                have hcb : (check_availability_node o (collect_details_node o
                    (understand_intent_node o (greeting_node st0)))).booking_confirmed =
                      false := by
                  rw [check_availability_node_booking, hcl]
                split
                · exact afterBook_c8 o _ hcb hce
                · split
                  · exact afterConfirm_c8 o _ hcb hce
                  · exact ⟨fun h => absurd h (by simp [hcb]), fun h => by simp [hcb] at h⟩
            · -- suggest_slots branch
              split
              · rename_i hcond
                have hbk :
                    (handle_error_node (suggest_slots_node o
                        (collect_details_node o (understand_intent_node o
                          (greeting_node st0))))).booking_confirmed = false := by
                  rw [(handle_error_node_fields _).1, (suggest_slots_node_fields o _).1, hcl]
                exact ⟨fun h => absurd h (by simp [hbk]), fun h => by simp [hbk] at h⟩
              · rename_i hcond
                have hse : (suggest_slots_node o (collect_details_node o
                    (understand_intent_node o (greeting_node st0)))).error_message = none := by
                  cases hx : (suggest_slots_node o (collect_details_node o
                      (understand_intent_node o (greeting_node st0)))).error_message with
                  | none => rfl
                  | some e => rw [hx] at hcond; simp at hcond
                have hsb : (suggest_slots_node o (collect_details_node o
                    (understand_intent_node o (greeting_node st0)))).booking_confirmed =
                      false := by
                  rw [(suggest_slots_node_fields o _).1, hcl]
                split
                · exact afterConfirm_c8 o _ hsb hse
                · exact ⟨fun h => absurd h (by simp [hsb]), fun h => by simp [hsb] at h⟩
    · -- fewer than two messages: terminal after greeting
      exact ⟨fun h => absurd h (by simp [hg]), fun h => by simp [hg] at h⟩

/-- Witness for C8: a fresh "hi" turn ends unconfirmed with no error, so both
conjuncts hold at a concrete input. -/
theorem booking_confirmed_requires_success_witness :
    initialHi.booking_confirmed = false ∧ initialHi.error_message = none ∧
      (((runAgent {} initialHi).booking_confirmed = true →
          ∃ a, a ≤ 2 ∧ ({} : Oracle).insertOk a = true) ∧
        ¬((runAgent {} initialHi).booking_confirmed = true ∧
          (runAgent {} initialHi).error_message.isSome = true)) :=
  ⟨rfl, rfl, booking_confirmed_requires_success {} initialHi rfl rfl⟩
